import Mathlib

/-!
Verification of the scoring and summarization engine of the Context Health Bar
extension (`content.js`).  The JavaScript core is embedded shallowly: message
objects become a `Message` structure, JS numbers that hold token/char counts
become `Nat`, and the fractional penalty arithmetic (performed on JS floats,
but exact on the values involved) is carried out in `ℚ`.  Each definition
mirrors the function of the same name in `content.js`.
-/

namespace HealthBar

/-- One transcript turn, as built by `parseConversation` in `content.js`.
`role` is the raw role string (`"user"` or `"assistant"` in parsed
transcripts), `tokens` is `ceil(charCount / 4)`, and `tokenStart`/`tokenEnd`
are the cumulative token range. -/
structure Message where
  id : String
  role : String
  text : String
  charCount : ℕ
  tokens : ℕ
  tokenStart : ℕ
  tokenEnd : ℕ
  isDraft : Bool
deriving DecidableEq, Repr

instance : Inhabited Message := ⟨⟨"", "", "", 0, 0, 0, 0, false⟩⟩

/-- `debugStats` field of the health report. -/
structure DebugStats where
  totalChars : ℕ
  totalTokens : ℕ
  messageCount : ℕ
deriving DecidableEq, Repr

/-- The value returned by `calculateHealth` in `content.js`. -/
structure HealthReport where
  health : ℤ
  tier : String
  reasons : List String
  hasUserMessages : Bool
  debugStats : DebugStats
deriving DecidableEq, Repr

/-- The pure result of `parseConversation` in `content.js`. -/
structure ParseSnapshot where
  messages : List Message
  totalTokens : ℕ
  totalCharsFromMessages : ℕ
  visibleChars : ℕ
deriving DecidableEq, Repr

-- ===========================================================================
-- CONFIG constants from `content.js`
-- ===========================================================================

def CHARS_PER_TOKEN : ℕ := 4

def TOKEN_THRESHOLDS_HIGH : ℕ := 40000
def TOKEN_THRESHOLDS_MEDIUM : ℕ := 25000
def TOKEN_THRESHOLDS_LOW : ℕ := 15000

/-- `CONFIG.CHAR_PENALTY_POINTS`: control points `(chars, penalty)`. -/
def CHAR_PENALTY_POINTS : List (ℕ × ℚ) :=
  [(0, 0), (120000, 25), (240000, 50), (800000, 100)]

def MESSAGE_THRESHOLDS_HIGH : ℕ := 140
def MESSAGE_THRESHOLDS_MEDIUM : ℕ := 100
def MESSAGE_THRESHOLDS_LOW : ℕ := 60

def LONG_MESSAGE_THRESHOLD : ℕ := 4000

/-- `CONFIG.ASSISTANT_DOMINANCE_RATIO` (0.7). -/
def ASSISTANT_DOMINANCE_LIMIT : ℚ := 7 / 10

/-- `CONFIG.IMPERATIVE_PHRASES`. -/
def IMPERATIVE_PHRASES : List String :=
  ["you are", "act as", "always", "never", "do not",
   String.mk ['d', 'o', 'n', Char.ofNat 39, 't'],
   "must", "should", "follow these", "remember to", "make sure"]

def MIN_IMPERATIVES : ℕ := 2
def EARLY_MESSAGE_COUNT : ℕ := 3

def HANDOFF_MAX_MESSAGE_CHARS : ℕ := 900
def HANDOFF_MAX_PINNED : ℕ := 8
def HANDOFF_MAX_RECENT : ℕ := 12
def HANDOFF_MAX_SALIENCE : ℕ := 6

-- ===========================================================================
-- String helpers (JS string/regex primitives used by the core)
-- ===========================================================================

/-- Characters matched by the JS regex class `\s` (ASCII part: space, tab,
newline, carriage return, vertical tab, form feed). -/
def isJsSpace (c : Char) : Bool :=
  c = ' ' || c = Char.ofNat 9 || c = Char.ofNat 10 || c = Char.ofNat 13 ||
  c = Char.ofNat 11 || c = Char.ofNat 12

/-- Char-list prefix test (`==` on each char). -/
def isPrefixChars : List Char → List Char → Bool
  | [], _ => true
  | _ :: _, [] => false
  | a :: as, b :: bs => a = b && isPrefixChars as bs

/-- Char-list infix test; models JS `String.prototype.includes`. -/
def isInfixChars (needle : List Char) : List Char → Bool
  | [] => needle.isEmpty
  | c :: t => isPrefixChars needle (c :: t) || isInfixChars needle t

/-- `hay.includes(pat)` on JS strings. -/
def includesStr (hay pat : String) : Bool :=
  isInfixChars pat.data hay.data

/-- ASCII lowering; models `String.prototype.toLowerCase` on the alphabet the
imperative phrases use. -/
def lowerAscii (s : String) : String :=
  ⟨s.data.map Char.toLower⟩

/-- `countImperativePhrases` from `content.js`: how many of the fixed phrases
occur in the lowercased text. -/
def countImperativePhrases (text : String) : ℕ :=
  (IMPERATIVE_PHRASES.filter fun phrase =>
    includesStr (lowerAscii text) phrase).length

/-- Suffixes of the text that begin a line: the whole text, and the remainder
after every line terminator (`\n` or `\r`), matching where the multiline
anchor `^` can match. -/
def lineStarts : List Char → List (List Char)
  | [] => []
  | c :: t => (if c = Char.ofNat 10 || c = Char.ofNat 13 then [t] else []) ++ lineStarts t

def allLineStarts (cs : List Char) : List (List Char) :=
  cs :: lineStarts cs

/-- Match of `[\s]*[-*]\s+` at a line start (whitespace spanning a line break
is subsumed by the later line start, so only same-line leading whitespace is
skipped here). -/
def lineStartsBullet (cs : List Char) : Bool :=
  match cs.dropWhile (fun c => isJsSpace c && !(c = Char.ofNat 10 || c = Char.ofNat 13)) with
  | c :: d :: _ => (c = '-' || c = '*') && isJsSpace d
  | _ => false

/-- Match of `\s*\d+\.\s+` at a line start. -/
def lineStartsNumbered (cs : List Char) : Bool :=
  let r := cs.dropWhile (fun c => isJsSpace c && !(c = Char.ofNat 10 || c = Char.ofNat 13))
  let ds := r.takeWhile Char.isDigit
  if ds.isEmpty then false
  else
    match r.drop ds.length with
    | '.' :: d :: _ => isJsSpace d
    | _ => false

/-- `hasBulletList` from `content.js`: one of the multiline regexes
`^[\s]*[-*]\s+` and `^[\s]*\d+\.\s+` matches. -/
def hasBulletList (text : String) : Bool :=
  (allLineStarts text.data).any fun ls => lineStartsBullet ls || lineStartsNumbered ls

-- ===========================================================================
-- Instruction detection (`detectInstructions` in `content.js`)
-- ===========================================================================

/-- `messages.filter((m, i) => i <= index && m.role === 'user').length`:
the user-message rank of position `i` (counting the message itself). -/
def userMessagesUpTo (messages : List Message) (i : ℕ) : ℕ :=
  ((messages.take (i + 1)).filter fun m => m.role == "user").length

/-- The per-message body of the `forEach` in `detectInstructions`: manual pin
first, then the imperative-density, early-position-plus-bullets, and
short-and-dense heuristics. -/
def isInstructionAt (pins : List String) (messages : List Message) (i : ℕ) : Bool :=
  let msg := messages.getD i default
  if !(msg.role == "user") then false
  else if msg.isDraft then false
  else if pins.contains msg.id then true
  else
    let imperativeCount := countImperativePhrases msg.text
    decide (MIN_IMPERATIVES ≤ imperativeCount) ||
    (decide (userMessagesUpTo messages i ≤ EARLY_MESSAGE_COUNT) && hasBulletList msg.text) ||
    (decide (MIN_IMPERATIVES ≤ imperativeCount) && decide (msg.charCount < 800))

/-- `detectInstructions(messages)` with the pin set passed explicitly:
indices flagged as instructions, pushed in transcript order. -/
def detectInstructions (pins : List String) (messages : List Message) : List ℕ :=
  (List.range messages.length).filter (isInstructionAt pins messages)

/-- Modelled from the claim for the refinement comparison: the per-message
check with the short-and-dense rule (rule 3) removed. -/
def isInstructionAtNoShortDense (pins : List String) (messages : List Message) (i : ℕ) : Bool :=
  let msg := messages.getD i default
  if !(msg.role == "user") then false
  else if msg.isDraft then false
  else if pins.contains msg.id then true
  else
    let imperativeCount := countImperativePhrases msg.text
    decide (MIN_IMPERATIVES ≤ imperativeCount) ||
    (decide (userMessagesUpTo messages i ≤ EARLY_MESSAGE_COUNT) && hasBulletList msg.text)

/-- Modelled from the claim for the refinement comparison: the detector
without rule 3. -/
def detectInstructionsNoShortDense (pins : List String) (messages : List Message) : List ℕ :=
  (List.range messages.length).filter (isInstructionAtNoShortDense pins messages)

-- ===========================================================================
-- Noise detection (`detectNoise` in `content.js`)
-- ===========================================================================

/-- JS semantics of `num / den > threshold` for nonnegative integer `num`,
`den` and a finite positive threshold: when `den` is `0` the quotient is
`Infinity` (if `num > 0`, which exceeds every finite threshold) or `NaN`
(if `num = 0`, for which every comparison is false). -/
def ratioExceeds (num den : ℕ) (threshold : ℚ) : Bool :=
  if den = 0 then decide (0 < num)
  else decide (threshold < (num : ℚ) / (den : ℚ))

/-- `detectNoise(messages, totalTokens)`: +10 when any assistant message is a
long monologue, +15 when the assistant token ratio exceeds the dominance
limit. -/
def detectNoise (messages : List Message) (totalTokens : ℕ) : ℕ :=
  let assistantTokens :=
    ((messages.filter fun m => m.role == "assistant").map Message.tokens).sum
  let longMonologueCount :=
    (messages.filter fun m =>
      m.role == "assistant" && decide (LONG_MESSAGE_THRESHOLD < m.charCount)).length
  (if 0 < longMonologueCount then 10 else 0) +
  (if ratioExceeds assistantTokens totalTokens ASSISTANT_DOMINANCE_LIMIT then 15 else 0)

-- ===========================================================================
-- Health scoring (`calculateHealth` in `content.js`)
-- ===========================================================================

/-- The grace-period distance penalty of step 1:
`distanceRatio = (totalTokens - lastEnd) / totalTokens`, and
`(distanceRatio - 0.5) * 80` when the ratio exceeds `0.5`.  When
`totalTokens` is `0` the JS quotient is `NaN` (`0/0`) or `-Infinity`
(negative over zero, as `lastEnd ≥ 0`), and neither satisfies `> 0.5`, so the
penalty is `0`. -/
def instrDistPenalty (totalTokens lastEnd : ℕ) : ℚ :=
  if totalTokens = 0 then 0
  else
    let distanceRatio : ℚ := ((totalTokens : ℚ) - (lastEnd : ℚ)) / (totalTokens : ℚ)
    if 1 / 2 < distanceRatio then (distanceRatio - 1 / 2) * 80 else 0

/-- `min(30, (totalChars / 120000) * 30)`: the ramp used when user messages
exist but no instruction was detected. -/
def noInstructionPenalty (totalChars : ℕ) : ℚ :=
  min 30 ((totalChars : ℚ) / 120000 * 30)

/-- Step 1 of `calculateHealth`: the instruction penalty together with the
reasons it pushes. -/
def instructionStep (messages : List Message) (totalTokens : ℕ)
    (instructionIndices : List ℕ) (totalChars : ℕ) (hasUserMessages : Bool) :
    ℚ × List String :=
  match instructionIndices with
  | [] =>
    if hasUserMessages then
      (noInstructionPenalty totalChars, ["No core instructions detected"])
    else (0, [])
  | a :: rest =>
    let lastInstructionIndex := (a :: rest).foldl Nat.max 0
    let lastInstructionPos := (messages.getD lastInstructionIndex default).tokenEnd
    let distanceFromEnd : ℤ := (totalTokens : ℤ) - (lastInstructionPos : ℤ)
    (instrDistPenalty totalTokens lastInstructionPos,
     if 5000 < distanceFromEnd then
       ["Primary instruction " ++ toString (distanceFromEnd.ediv 1000) ++ "k tokens back"]
     else [])

/-- Token-count sub-penalty of step 2. -/
def tokenPenalty (t : ℕ) : ℚ :=
  if TOKEN_THRESHOLDS_HIGH < t then 30
  else if TOKEN_THRESHOLDS_MEDIUM < t then 20
  else if TOKEN_THRESHOLDS_LOW < t then 10
  else 0

/-- The tail of the interpolation loop in `interpolatePenalty`: `prev` is the
point `points[i-1]`, the list holds the remaining points; falling off the end
returns the last point's penalty. -/
def interpFrom (prev : ℕ × ℚ) (value : ℕ) : List (ℕ × ℚ) → ℚ
  | [] => prev.2
  | next :: t =>
    if value ≤ next.1 then
      let span : ℤ := (next.1 : ℤ) - (prev.1 : ℤ)
      if span ≤ 0 then next.2
      else prev.2 + ((value : ℚ) - (prev.1 : ℚ)) / (span : ℚ) * (next.2 - prev.2)
    else interpFrom next value t

/-- `interpolatePenalty(points, value)` from `content.js`. -/
def interpolatePenalty (points : List (ℕ × ℚ)) (value : ℕ) : ℚ :=
  match points with
  | [] => 0
  | p0 :: rest => if value ≤ p0.1 then p0.2 else interpFrom p0 value rest

/-- Character sub-penalty of step 2: interpolation over the fixed table. -/
def charPenaltyAt (c : ℕ) : ℚ :=
  interpolatePenalty CHAR_PENALTY_POINTS c

/-- Message-count sub-penalty of step 2. -/
def messagePenalty (n : ℕ) : ℚ :=
  if MESSAGE_THRESHOLDS_HIGH < n then 30
  else if MESSAGE_THRESHOLDS_MEDIUM < n then 20
  else if MESSAGE_THRESHOLDS_LOW < n then 10
  else 0

/-- `Math.max(tokenPenalty, charPenalty, messagePenalty)`. -/
def lengthPenalty (t c n : ℕ) : ℚ :=
  max (max (tokenPenalty t) (charPenaltyAt c)) (messagePenalty n)

/-- `formatCount` from `content.js` (the `toFixed(2)` of the millions branch
is modelled as exact rounding to two decimals). -/
def formatCount (value : ℕ) : String :=
  if 1000000 ≤ value then
    let hundredths : ℤ := round ((value : ℚ) * 100 / 1000000)
    let frac := (hundredths % 100).toNat
    toString (hundredths / 100) ++ "." ++
      (if frac < 10 then "0" ++ toString frac else toString frac) ++ "M"
  else if 1000 ≤ value then
    toString (round ((value : ℚ) / 1000)) ++ "k"
  else toString value

/-- The reason strings pushed by step 2: each sub-penalty that is nonzero and
equal to the maximum contributes, in the fixed order token, char, message. -/
def lengthReasons (t c n : ℕ) : List String :=
  let lp := lengthPenalty t c n
  (if lp = tokenPenalty t ∧ 0 < tokenPenalty t then
    ["Conversation length: " ++ formatCount t ++ " tokens"] else []) ++
  (if lp = charPenaltyAt c ∧ 0 < charPenaltyAt c then
    ["Conversation length: " ++ formatCount c ++ " chars"] else []) ++
  (if lp = messagePenalty n ∧ 0 < messagePenalty n then
    ["Conversation length: " ++ toString n ++ " messages"] else [])

/-- The clamped pre-rounding score
`Math.max(0, Math.min(100, 100 - instructionPenalty - lengthPenalty - noisePenalty))`
of `calculateHealth`, from which both the tier and the rounded health are
derived. -/
def clampedScore (messages : List Message) (totalTokens : ℕ)
    (instructionIndices : List ℕ) (totalCharsOverride : ℕ) : ℚ :=
  let hasUserMessages := messages.any fun m => m.role == "user" && !m.isDraft
  let nonDraftMessages := messages.filter fun m => !m.isDraft
  let totalChars := max ((nonDraftMessages.map Message.charCount).sum) totalCharsOverride
  let instructionPenalty :=
    (instructionStep messages totalTokens instructionIndices totalChars hasUserMessages).1
  let lp := lengthPenalty totalTokens totalChars nonDraftMessages.length
  let np : ℚ := (detectNoise messages totalTokens : ℚ)
  max 0 (min 100 (100 - instructionPenalty - lp - np))

/-- Step 5 tier mapping, applied to the (unrounded) clamped score. -/
def tierOf (health : ℚ) : String :=
  if 80 ≤ health then "stable"
  else if 50 ≤ health then "degrading"
  else if 20 ≤ health then "unreliable"
  else "critical"

/-- `Math.ceil(a / b)` on nonnegative integers. -/
def ceilDiv (a b : ℕ) : ℕ := (a + b - 1) / b

/-- `calculateHealth(messages, totalTokens, instructionIndices,
totalCharsOverride)` from `content.js`. -/
def calculateHealth (messages : List Message) (totalTokens : ℕ)
    (instructionIndices : List ℕ) (totalCharsOverride : ℕ) : HealthReport :=
  let hasUserMessages := messages.any fun m => m.role == "user" && !m.isDraft
  let nonDraftMessages := messages.filter fun m => !m.isDraft
  let messageCount := nonDraftMessages.length
  let totalChars := max ((nonDraftMessages.map Message.charCount).sum) totalCharsOverride
  let instr := instructionStep messages totalTokens instructionIndices totalChars hasUserMessages
  let noisePenalty := detectNoise messages totalTokens
  let noiseReasons : List String :=
    if 0 < noisePenalty then ["Long assistant responses detected"] else []
  let s := clampedScore messages totalTokens instructionIndices totalCharsOverride
  { health := round s
    tier := tierOf s
    reasons := instr.2 ++ lengthReasons totalTokens totalChars messageCount ++ noiseReasons
    hasUserMessages := hasUserMessages
    debugStats :=
      { totalChars := totalChars
        totalTokens := max totalTokens (ceilDiv totalChars CHARS_PER_TOKEN)
        messageCount := messageCount } }

/-- The pure scoring path of `updateHealthBar` in `content.js`: the fixed
fail-open report when no messages were parsed, otherwise instruction
detection followed by `calculateHealth` with
`max(totalCharsFromMessages, visibleChars)`. -/
def updateHealthBarReport (pins : List String) (snap : ParseSnapshot) : HealthReport :=
  let totalCharsForPenalty := max snap.totalCharsFromMessages snap.visibleChars
  if snap.messages.isEmpty then
    { health := 100
      tier := "stable"
      reasons := []
      hasUserMessages := false
      debugStats :=
        { totalChars := totalCharsForPenalty
          totalTokens := max snap.totalTokens (ceilDiv totalCharsForPenalty CHARS_PER_TOKEN)
          messageCount := 0 } }
  else
    calculateHealth snap.messages snap.totalTokens
      (detectInstructions pins snap.messages) totalCharsForPenalty

-- ===========================================================================
-- Handoff builder (`buildHandoffPacket` and helpers in `content.js`)
-- ===========================================================================

/-- `text.replace(/\s+/g, ' ')`: each maximal whitespace run becomes a single
space.  The flag records whether we are inside a run. -/
def collapseWs : List Char → Bool → List Char
  | [], _ => []
  | c :: t, inRun =>
    if isJsSpace c then
      (if inRun then [] else [' ']) ++ collapseWs t true
    else c :: collapseWs t false

/-- `String.prototype.trim` (ASCII whitespace). -/
def trimChars (cs : List Char) : List Char :=
  ((cs.dropWhile isJsSpace).reverse.dropWhile isJsSpace).reverse

/-- `normalizeText` from `content.js`. -/
def normalizeText (text : String) : String :=
  ⟨trimChars (collapseWs text.data false)⟩

/-- `cs.slice(0, endIdx)` with the JS negative-index convention. -/
def jsSliceTo (cs : List Char) (endIdx : ℤ) : List Char :=
  let e := if endIdx < 0 then (cs.length : ℤ) + endIdx else endIdx
  cs.take e.toNat

/-- `clipText` from `content.js`: normalize, and truncate to
`maxChars - 3` characters plus an ellipsis when too long. -/
def clipText (text : String) (maxChars : ℕ) : String :=
  let normalized := normalizeText text
  if normalized.data.length ≤ maxChars then normalized
  else ⟨jsSliceTo normalized.data ((maxChars : ℤ) - 3)⟩ ++ "..."

/-- The richness presets returned by `getHandoffLimits`. -/
structure HandoffLimits where
  maxChars : ℕ
  maxPinned : ℕ
  maxRecent : ℕ
  maxSalience : ℕ
deriving DecidableEq, Repr

/-- `getHandoffLimits(settings)`: presets by richness name; anything other
than `"compact"`/`"standard"` (including an absent setting, which
`|| 'rich'` maps to `"rich"`) gets the rich preset. -/
def getHandoffLimits (richness : String) : HandoffLimits :=
  if richness == "compact" then ⟨400, 5, 6, 3⟩
  else if richness == "standard" then ⟨700, 6, 8, 4⟩
  else ⟨HANDOFF_MAX_MESSAGE_CHARS, HANDOFF_MAX_PINNED, HANDOFF_MAX_RECENT, HANDOFF_MAX_SALIENCE⟩

/-- `\w` of the word-boundary checks: `[A-Za-z0-9_]`. -/
def isWordChar (c : Char) : Bool :=
  ('a' ≤ c && c ≤ 'z') || ('A' ≤ c && c ≤ 'Z') || c.isDigit || c = '_'

/-- Case-insensitive prefix match of an (ASCII lowercase) word. -/
def ciPrefixChars : List Char → List Char → Bool
  | [], _ => true
  | _ :: _, [] => false
  | a :: as, b :: bs => Char.toLower b = a && ciPrefixChars as bs

/-- `\bw\b` (case-insensitive) matching somewhere in the text;
`prevIsWord` says whether the character before the current position is a
word character. -/
def hasWordFrom (w : List Char) : List Char → Bool → Bool
  | [], _ => false
  | c :: t, prevIsWord =>
    (!prevIsWord && ciPrefixChars w (c :: t) &&
      (match (c :: t).drop w.length with
       | [] => true
       | d :: _ => !isWordChar d)) ||
    hasWordFrom w t (isWordChar c)

/-- The salience regex `/\bimportant\b|\bmust\b|\bshould\b|\bremember\b/i`. -/
def importanceRegex (text : String) : Bool :=
  hasWordFrom "important".data text.data false ||
  hasWordFrom "must".data text.data false ||
  hasWordFrom "should".data text.data false ||
  hasWordFrom "remember".data text.data false

/-- Three backticks, the fenced-code marker searched for by `scoreSalience`. -/
def codeFenceMarker : String := "```"

/-- `scoreSalience(msg)` from `content.js`. -/
def scoreSalience (msg : Message) : ℕ :=
  (if msg.role == "user" then 1 else 0) +
  (if hasBulletList msg.text then 3 else 0) +
  (if MIN_IMPERATIVES ≤ countImperativePhrases msg.text then 2 else 0) +
  (if 1200 < msg.charCount then 2 else 0) +
  (if includesStr msg.text codeFenceMarker then 2 else 0) +
  (if importanceRegex msg.text then 2 else 0)

/-- An entry `{ msg, score, index }` of the `scored` array in
`getSalientMessages`. -/
structure ScoredMsg where
  msg : Message
  score : ℕ
  index : ℕ
deriving DecidableEq, Repr

/-- The order imposed by the sort comparator
`(a, b) => b.score - a.score, ties a.index - b.index`: higher score first,
equal scores by lower original index. -/
def salienceLE (a b : ScoredMsg) : Prop :=
  b.score < a.score ∨ (a.score = b.score ∧ a.index ≤ b.index)

instance : DecidableRel salienceLE := fun a b => by
  unfold salienceLE; infer_instance

instance : IsTotal ScoredMsg salienceLE :=
  ⟨fun a b => by unfold salienceLE; omega⟩

instance : IsTrans ScoredMsg salienceLE :=
  ⟨fun a b c hab hbc => by unfold salienceLE at *; omega⟩

/-- The `scored` array: every message not excluded (the recent window) with a
positive salience score, with its original position. -/
def salientCandidates (messages : List Message) (excludeIds : List String) :
    List ScoredMsg :=
  (messages.enum).filterMap fun p =>
    if excludeIds.contains p.2.id then none
    else
      let score := scoreSalience p.2
      if score = 0 then none else some ⟨p.2, score, p.1⟩

/-- The candidates after the comparator sort (the JS comparator is a total
antisymmetric order on the candidates, so the sorted array is unique). -/
def salientSorted (messages : List Message) (excludeIds : List String) :
    List ScoredMsg :=
  List.insertionSort salienceLE (salientCandidates messages excludeIds)

/-- `getSalientMessages(messages, excludeIds, maxCount)` from `content.js`. -/
def getSalientMessages (messages : List Message) (excludeIds : List String)
    (maxCount : ℕ) : List Message :=
  ((salientSorted messages excludeIds).take maxCount).map ScoredMsg.msg

/-- `arr.slice(-n)`: the last `n` elements; JS `slice(-0)` is `slice(0)`,
the whole array. -/
def jsSliceLast (l : List Message) (n : ℕ) : List Message :=
  if n = 0 then l else l.drop (l.length - n)

/-- Role label used in packet bullet lines. -/
def roleLabel (msg : Message) : String :=
  if msg.role == "user" then "User" else "Assistant"

/-- `buildHandoffPacket(messages)` from `content.js`, with the pin set and
the richness setting passed explicitly. -/
def buildHandoffPacket (pins : List String) (richness : String)
    (messages : List Message) : String :=
  let fullMessages := messages.filter fun m => !m.isDraft
  let userMessages := fullMessages.filter fun m => m.role == "user"
  let pinnedMessages := fullMessages.filter fun m => pins.contains m.id
  let limits := getHandoffLimits richness
  let recentMessages := jsSliceLast fullMessages limits.maxRecent
  let recentIds := recentMessages.map Message.id
  let lines : List String :=
    ["# Context handoff from previous chat", ""] ++
    (match userMessages.head? with
     | none => []
     | some firstUser => ["## Original request:", clipText firstUser.text limits.maxChars]) ++
    (if pinnedMessages.isEmpty then []
     else
       ["", "### Pinned instructions:"] ++
       (pinnedMessages.take limits.maxPinned).map fun m =>
         "- **User:** " ++ clipText m.text limits.maxChars) ++
    (let salientMessages := getSalientMessages fullMessages recentIds limits.maxSalience
     if salientMessages.isEmpty then []
     else
       ["", "### Key highlights:"] ++
       salientMessages.map fun m =>
         "- **" ++ roleLabel m ++ ":** " ++ clipText m.text limits.maxChars) ++
    (match userMessages.getLast? with
     | none => []
     | some lastUser => ["", "### Current focus:", clipText lastUser.text limits.maxChars]) ++
    (if recentMessages.isEmpty then []
     else
       ["", "### Recent exchange:"] ++
       recentMessages.map fun m =>
         "- **" ++ roleLabel m ++ ":** " ++ clipText m.text limits.maxChars) ++
    ["", "Please continue from this context."]
  String.intercalate (String.mk [Char.ofNat 10]) lines

-- ===========================================================================
-- Shared helper lemmas
-- ===========================================================================

/-- Rule 3's flag is absorbed by rule 1's flag. -/
theorem or_and_self_absorb (a b c : Bool) : (a || b || (a && c)) = (a || b) := by
  cases a <;> cases b <;> cases c <;> rfl

/-- Filtering a list of messages cannot increase the token sum. -/
theorem filter_tokens_sum_le (p : Message → Bool) (l : List Message) :
    ((l.filter p).map Message.tokens).sum ≤ (l.map Message.tokens).sum := by
  induction l with
  | nil => simp
  | cons a t ih =>
    by_cases h : p a = true <;> simp [List.filter_cons, h] <;> omega

-- ===========================================================================
-- Claim theorems
-- ===========================================================================

/-- Counterexample to C1: the tier is computed from the clamped score
*before* rounding, while the reported health is rounded afterwards, so the
reported boundary values need not match the band table.  With one user
message whose token range ends at `49`, total tokens `200` and instruction
index `0`, the distance penalty is `20.4`, the clamped score is `79.6`, and
the report carries health `80` (claimed band: stable) with tier
`"degrading"`. -/
theorem health_tier_c1_counterexample :
    (calculateHealth [⟨"c", "user", "", 0, 0, 0, 49, false⟩] 200 [0] 0).health = 80 ∧
    (calculateHealth [⟨"c", "user", "", 0, 0, 0, 49, false⟩] 200 [0] 0).tier = "degrading" := by
  have hs : clampedScore [⟨"c", "user", "", 0, 0, 0, 49, false⟩] 200 [0] 0 = 398 / 5 := by
    unfold clampedScore
    dsimp only
    norm_num [instructionStep, instrDistPenalty, lengthPenalty, tokenPenalty, charPenaltyAt,
      interpolatePenalty, CHAR_PENALTY_POINTS, interpFrom, messagePenalty, detectNoise,
      ratioExceeds, noInstructionPenalty, TOKEN_THRESHOLDS_HIGH, TOKEN_THRESHOLDS_MEDIUM,
      TOKEN_THRESHOLDS_LOW, MESSAGE_THRESHOLDS_HIGH, MESSAGE_THRESHOLDS_MEDIUM,
      MESSAGE_THRESHOLDS_LOW, LONG_MESSAGE_THRESHOLD, ASSISTANT_DOMINANCE_LIMIT,
      List.filter_cons, List.filter_nil, List.map_cons, List.map_nil, List.sum_cons,
      List.sum_nil, List.any_cons, List.any_nil,
      show (("user" : String) = "assistant") = False from eq_false (by decide)]
  constructor
  · show round (clampedScore [⟨"c", "user", "", 0, 0, 0, 49, false⟩] 200 [0] 0) = 80
    rw [hs]
    norm_num [round_eq]
  · show tierOf (clampedScore [⟨"c", "user", "", 0, 0, 0, 49, false⟩] 200 [0] 0) = "degrading"
    rw [hs]
    unfold tierOf
    rw [if_neg (by norm_num), if_pos (by norm_num)]

/-- C1 (amended): for every input the reported health is an integer with
`0 ≤ health ≤ 100`, and the tier is exactly the band of the clamped
*pre-rounding* score, with each band inclusive on its lower bound
(`tierOf`).  Because the health is rounded after the tier is chosen, the
reported health can sit one point above its tier's band at a boundary (see
the counterexample). -/
theorem health_bounds_and_tier_c1 (messages : List Message) (totalTokens : ℕ)
    (instructionIndices : List ℕ) (totalCharsOverride : ℕ) :
    0 ≤ (calculateHealth messages totalTokens instructionIndices totalCharsOverride).health ∧
    (calculateHealth messages totalTokens instructionIndices totalCharsOverride).health ≤ 100 ∧
    (calculateHealth messages totalTokens instructionIndices totalCharsOverride).tier =
      tierOf (clampedScore messages totalTokens instructionIndices totalCharsOverride) := by
  have hhealth :
      (calculateHealth messages totalTokens instructionIndices totalCharsOverride).health =
        round (clampedScore messages totalTokens instructionIndices totalCharsOverride) := rfl
  have htier :
      (calculateHealth messages totalTokens instructionIndices totalCharsOverride).tier =
        tierOf (clampedScore messages totalTokens instructionIndices totalCharsOverride) := rfl
  obtain ⟨x, hx⟩ : ∃ x, clampedScore messages totalTokens instructionIndices totalCharsOverride =
      max 0 (min 100 x) := ⟨_, rfl⟩
  have h0 : (0 : ℚ) ≤ clampedScore messages totalTokens instructionIndices totalCharsOverride := by
    rw [hx]
    exact le_max_left _ _
  have h100 : clampedScore messages totalTokens instructionIndices totalCharsOverride ≤ 100 := by
    rw [hx]
    exact max_le (by norm_num) (min_le_left _ _)
  refine ⟨?_, ?_, htier⟩
  · rw [hhealth, round_eq]
    rw [show (0 : ℤ) = ⌊(0 : ℚ)⌋ from by norm_num]
    exact Int.floor_le_floor (by linarith)
  · rw [hhealth, round_eq]
    calc ⌊clampedScore messages totalTokens instructionIndices totalCharsOverride + 1 / 2⌋
        ≤ ⌊(201 : ℚ) / 2⌋ := Int.floor_le_floor (by linarith)
      _ = 100 := by norm_num

/-- C3: transcript with 70 non-draft user messages totalling 0 chars, an
instruction ending at the very end, 16000 total tokens and a 250000-char
override. -/
def c3Msgs : List Message :=
  List.replicate 69 ⟨"u", "user", "", 0, 0, 0, 0, false⟩ ++
    [⟨"i", "user", "", 0, 0, 0, 16000, false⟩]

/-- C3: the length penalty is the maximum — not the sum — of the token, char
and message sub-penalties (each sub-penalty bounds it and it equals one of
them), and on the spec's instance (16000 tokens → 10, 250000 effective chars
→ 1425/28 ≈ 50.9, 70 non-draft messages → 10) the length penalty is exactly
`1425/28` and the report's reasons list holds only the char-based reason. -/
theorem length_penalty_is_max_c3 :
    (∀ t c n : ℕ,
      tokenPenalty t ≤ lengthPenalty t c n ∧
      charPenaltyAt c ≤ lengthPenalty t c n ∧
      messagePenalty n ≤ lengthPenalty t c n ∧
      (lengthPenalty t c n = tokenPenalty t ∨ lengthPenalty t c n = charPenaltyAt c ∨
        lengthPenalty t c n = messagePenalty n)) ∧
    lengthPenalty 16000 250000 70 = 1425 / 28 ∧
    (calculateHealth c3Msgs 16000 [69] 250000).reasons =
      ["Conversation length: 250k chars"] := by
  have htok : tokenPenalty 16000 = 10 := by
    norm_num [tokenPenalty, TOKEN_THRESHOLDS_HIGH, TOKEN_THRESHOLDS_MEDIUM, TOKEN_THRESHOLDS_LOW]
  have hchar : charPenaltyAt 250000 = 1425 / 28 := by
    norm_num [charPenaltyAt, interpolatePenalty, CHAR_PENALTY_POINTS, interpFrom]
  have hmsg : messagePenalty 70 = 10 := by
    norm_num [messagePenalty, MESSAGE_THRESHOLDS_HIGH, MESSAGE_THRESHOLDS_MEDIUM,
      MESSAGE_THRESHOLDS_LOW]
  have hlp : lengthPenalty 16000 250000 70 = 1425 / 28 := by
    unfold lengthPenalty
    rw [htok, hchar, hmsg, max_eq_right (by norm_num : (10 : ℚ) ≤ 1425 / 28),
      max_eq_left (by norm_num : (10 : ℚ) ≤ 1425 / 28)]
  have hlr : lengthReasons 16000 250000 70 = ["Conversation length: 250k chars"] := by
    unfold lengthReasons
    dsimp only
    rw [hlp, htok, hchar, hmsg]
    rw [if_neg (by norm_num), if_pos (by norm_num), if_neg (by norm_num)]
    rw [show formatCount 250000 = "250k" from by
      unfold formatCount
      rw [if_neg (by omega), if_pos (by omega),
        show round (((250000 : ℕ) : ℚ) / 1000) = 250 from by norm_num [round_eq]]
      rfl]
    rfl
  refine ⟨fun t c n => ?_, hlp, ?_⟩
  · refine ⟨le_max_of_le_left (le_max_left _ _), le_max_of_le_left (le_max_right _ _),
      le_max_right _ _, ?_⟩
    rcases max_choice (max (tokenPenalty t) (charPenaltyAt c)) (messagePenalty n) with h | h
    · rcases max_choice (tokenPenalty t) (charPenaltyAt c) with h2 | h2
      · exact Or.inl (by rw [lengthPenalty, h, h2])
      · exact Or.inr (Or.inl (by rw [lengthPenalty, h, h2]))
    · exact Or.inr (Or.inr (by rw [lengthPenalty, h]))
  · unfold calculateHealth
    dsimp only
    rw [show ((c3Msgs.filter fun m => !m.isDraft).map Message.charCount).sum = 0 from by decide]
    rw [show (c3Msgs.any fun m => m.role == "user" && !m.isDraft) = true from by decide]
    rw [show (c3Msgs.filter fun m => !m.isDraft).length = 70 from by decide]
    rw [Nat.zero_max]
    rw [show (instructionStep c3Msgs 16000 [69] 250000 true).2 = [] from by decide]
    rw [show detectNoise c3Msgs 16000 = 0 from by
      unfold detectNoise
      rw [show ((c3Msgs.filter fun m => m.role == "assistant").map Message.tokens).sum = 0
        from by decide]
      rw [show (c3Msgs.filter fun m =>
          m.role == "assistant" && decide (LONG_MESSAGE_THRESHOLD < m.charCount)).length = 0
        from by decide]
      dsimp only
      rw [show ratioExceeds 0 16000 ASSISTANT_DOMINANCE_LIMIT = false from by
        unfold ratioExceeds
        rw [if_neg (by omega)]
        simp only [decide_eq_false_iff_not, not_lt, ASSISTANT_DOMINANCE_LIMIT]
        norm_num]
      simp]
    simp only [Nat.lt_irrefl, if_false]
    rw [hlr]
    rfl

/-- C4: the interpolated character penalty over the table
`{(0,0), (120000,25), (240000,50), (800000,100)}` is exactly `25` at
`120000` chars, exactly `37.5` at `180000` chars, and saturates at exactly
`100` for every value above `800000`. -/
theorem char_penalty_table_c4 :
    charPenaltyAt 120000 = 25 ∧ charPenaltyAt 180000 = 75 / 2 ∧
    ∀ v : ℕ, 800000 < v → charPenaltyAt v = 100 := by
  refine ⟨?_, ?_, fun v hv => ?_⟩
  · simp only [charPenaltyAt, interpolatePenalty, CHAR_PENALTY_POINTS, interpFrom]
    norm_num
  · simp only [charPenaltyAt, interpolatePenalty, CHAR_PENALTY_POINTS, interpFrom]
    norm_num
  simp only [charPenaltyAt, interpolatePenalty, CHAR_PENALTY_POINTS, interpFrom]
  rw [if_neg (by omega), if_neg (by omega), if_neg (by omega), if_neg (by omega)]

/-- Witness for C4 at the concrete value `800001`. -/
theorem char_penalty_table_c4_witness :
    800000 < 800001 ∧ charPenaltyAt 800001 = 100 :=
  ⟨by omega, char_penalty_table_c4.2.2 800001 (by omega)⟩

/-- C5: when no messages were parsed (no transcript and no non-empty draft),
the update path fails open: health `100`, tier `"stable"`,
`hasUserMessages = false`, and no reasons. -/
theorem empty_transcript_fail_open_c5 (pins : List String) (snap : ParseSnapshot)
    (h : snap.messages = []) :
    (updateHealthBarReport pins snap).health = 100 ∧
    (updateHealthBarReport pins snap).tier = "stable" ∧
    (updateHealthBarReport pins snap).hasUserMessages = false ∧
    (updateHealthBarReport pins snap).reasons = [] := by
  simp [updateHealthBarReport, h]

/-- Witness for C5 on a concrete empty snapshot. -/
theorem empty_transcript_fail_open_c5_witness :
    (updateHealthBarReport [] ⟨[], 0, 0, 5⟩).health = 100 ∧
    (updateHealthBarReport [] ⟨[], 0, 0, 5⟩).tier = "stable" ∧
    (updateHealthBarReport [] ⟨[], 0, 0, 5⟩).hasUserMessages = false ∧
    (updateHealthBarReport [] ⟨[], 0, 0, 5⟩).reasons = [] :=
  empty_transcript_fail_open_c5 [] ⟨[], 0, 0, 5⟩ rfl

/-- Counterexample to C2: with total tokens `T = 4` and the last instruction's
token-range upper bound equal to `T` (the instruction is the very last token)
the scorer's distance penalty is `0`, not the claimed `40`; with the upper
bound at `0.75 * T = 3` it is `0`, not the claimed `20`.  (The distance ratio
is `(T - upperBound) / T`, so a *recent* instruction yields no penalty.) -/
theorem instruction_distance_c2_counterexample :
    (instructionStep [⟨"m", "user", "", 0, 4, 0, 4, false⟩] 4 [0] 0 true).1 = 0 ∧
    (instructionStep [⟨"m", "user", "", 0, 3, 0, 3, false⟩] 4 [0] 0 true).1 = 0 ∧
    (instructionStep [⟨"m", "user", "", 0, 4, 0, 4, false⟩] 4 [0] 0 true).1 ≠ 40 ∧
    (instructionStep [⟨"m", "user", "", 0, 3, 0, 3, false⟩] 4 [0] 0 true).1 ≠ 20 := by
  have h4 : (instructionStep [⟨"m", "user", "", 0, 4, 0, 4, false⟩] 4 [0] 0 true).1 = 0 := by
    simp only [instructionStep, instrDistPenalty]
    norm_num
  have h3 : (instructionStep [⟨"m", "user", "", 0, 3, 0, 3, false⟩] 4 [0] 0 true).1 = 0 := by
    simp only [instructionStep, instrDistPenalty]
    norm_num
  refine ⟨h4, h3, by rw [h4]; norm_num, by rw [h3]; norm_num⟩

/-- C2 (amended): the penalty is governed by the token distance between the
last instruction's upper bound and the end.  For `T > 0`: upper bound
`0.5 * T` (ratio `0.5`) gives penalty `0`; upper bound `0.25 * T` — i.e.
distance `0.75 * T` — gives penalty `20`; upper bound `0` — the instruction
is the very first token range, distance `T` — gives penalty `40`. -/
theorem instruction_distance_c2_amended (T : ℕ) (h : 0 < T) :
    instrDistPenalty (2 * T) T = 0 ∧
    instrDistPenalty (4 * T) T = 20 ∧
    instrDistPenalty T 0 = 40 := by
  have ht : (0 : ℚ) < (T : ℚ) := by exact_mod_cast h
  refine ⟨?_, ?_, ?_⟩ <;> unfold instrDistPenalty
  · rw [if_neg (by omega)]
    have hr : (((2 * T : ℕ) : ℚ) - (T : ℚ)) / ((2 * T : ℕ) : ℚ) = 1 / 2 := by
      push_cast; field_simp; ring
    rw [hr, if_neg (by norm_num)]
  · rw [if_neg (by omega)]
    have hr : (((4 * T : ℕ) : ℚ) - (T : ℚ)) / ((4 * T : ℕ) : ℚ) = 3 / 4 := by
      push_cast; field_simp; ring
    rw [hr, if_pos (by norm_num)]
    norm_num
  · rw [if_neg (by omega)]
    have hr : ((T : ℚ) - ((0 : ℕ) : ℚ)) / (T : ℚ) = 1 := by
      push_cast; field_simp
    rw [hr, if_pos (by norm_num)]
    norm_num

/-- Witness for the amended C2 at `T = 1`. -/
theorem instruction_distance_c2_amended_witness :
    instrDistPenalty (2 * 1) 1 = 0 ∧
    instrDistPenalty (4 * 1) 1 = 20 ∧
    instrDistPenalty 1 0 = 40 :=
  instruction_distance_c2_amended 1 (by omega)

/-- C7: building the handoff packet is deterministic — two invocations on the
same message list, pin set and richness configuration produce identical
strings. -/
theorem handoff_deterministic_c7 (pins₁ pins₂ : List String)
    (richness₁ richness₂ : String) (messages₁ messages₂ : List Message)
    (hp : pins₁ = pins₂) (hr : richness₁ = richness₂) (hm : messages₁ = messages₂) :
    buildHandoffPacket pins₁ richness₁ messages₁ =
      buildHandoffPacket pins₂ richness₂ messages₂ := by
  rw [hp, hr, hm]

/-- Witness for C7 on a concrete two-message conversation. -/
theorem handoff_deterministic_c7_witness :
    buildHandoffPacket ["a"] "compact"
        [⟨"a", "user", "Always use tabs. Never use spaces.", 34, 9, 0, 9, false⟩,
         ⟨"b", "assistant", "Understood.", 11, 3, 9, 12, false⟩] =
      buildHandoffPacket ["a"] "compact"
        [⟨"a", "user", "Always use tabs. Never use spaces.", 34, 9, 0, 9, false⟩,
         ⟨"b", "assistant", "Understood.", 11, 3, 9, 12, false⟩] :=
  handoff_deterministic_c7 ["a"] ["a"] "compact" "compact"
    [⟨"a", "user", "Always use tabs. Never use spaces.", 34, 9, 0, 9, false⟩,
     ⟨"b", "assistant", "Understood.", 11, 3, 9, 12, false⟩]
    [⟨"a", "user", "Always use tabs. Never use spaces.", 34, 9, 0, 9, false⟩,
     ⟨"b", "assistant", "Understood.", 11, 3, 9, 12, false⟩]
    rfl rfl rfl

/-- C9: with a zero total token count (which, on the parser's outputs, forces
every message's token count to zero) both ratio computations are harmless:
the instruction-distance penalty is `0` for every instruction position, and
the noise penalty contains no `15`-point dominance component (it is at most
the `10`-point monologue component). -/
theorem zero_tokens_harmless_c9 (messages : List Message)
    (totalTokens lastEnd : ℕ) (h0 : totalTokens = 0)
    (hsum : (messages.map Message.tokens).sum = totalTokens) :
    instrDistPenalty totalTokens lastEnd = 0 ∧
    detectNoise messages totalTokens ≤ 10 := by
  subst h0
  constructor
  · unfold instrDistPenalty
    simp
  · have hA : ((messages.filter fun m => m.role == "assistant").map Message.tokens).sum = 0 := by
      have hle := filter_tokens_sum_le (fun m => m.role == "assistant") messages
      omega
    unfold detectNoise
    rw [hA]
    dsimp only
    have hdom : ratioExceeds 0 0 ASSISTANT_DOMINANCE_LIMIT = false := by
      unfold ratioExceeds
      simp
    rw [hdom]
    simp only [Bool.false_eq_true, if_false, Nat.add_zero]
    split <;> omega

/-- Witness for C9: a transcript whose only message is a zero-token assistant
monologue. -/
theorem zero_tokens_harmless_c9_witness :
    instrDistPenalty 0 7 = 0 ∧
    detectNoise [⟨"a", "assistant", "", 5000, 0, 0, 0, false⟩] 0 ≤ 10 :=
  zero_tokens_harmless_c9 [⟨"a", "assistant", "", 5000, 0, 0, 0, false⟩] 0 7 rfl rfl

/-- C6: for every message list and pin set, a non-draft user message whose id
is pinned is included in `detectInstructions` unconditionally (no heuristic
is consulted); every returned index denotes a non-draft user message; and the
returned indices are in strictly increasing transcript order. -/
theorem pinned_always_instruction_c6 (pins : List String) (messages : List Message) :
    (∀ i, i < messages.length →
      (messages.getD i default).role = "user" →
      (messages.getD i default).isDraft = false →
      pins.contains (messages.getD i default).id = true →
      i ∈ detectInstructions pins messages) ∧
    (∀ j ∈ detectInstructions pins messages,
      j < messages.length ∧ (messages.getD j default).role = "user" ∧
        (messages.getD j default).isDraft = false) ∧
    (detectInstructions pins messages).Pairwise (· < ·) := by
  refine ⟨?_, ?_, ?_⟩
  · intro i hi hrole hdraft hpin
    unfold detectInstructions
    rw [List.mem_filter]
    refine ⟨List.mem_range.mpr hi, ?_⟩
    unfold isInstructionAt
    dsimp only
    rw [if_neg (show ¬(!((messages.getD i default).role == "user")) = true from by
      rw [hrole]; decide)]
    rw [if_neg (show ¬((messages.getD i default).isDraft = true) from by
      rw [hdraft]; decide)]
    rw [if_pos hpin]
  · intro j hj
    unfold detectInstructions at hj
    rw [List.mem_filter, List.mem_range] at hj
    obtain ⟨hjlt, hjp⟩ := hj
    unfold isInstructionAt at hjp
    dsimp only at hjp
    refine ⟨hjlt, ?_, ?_⟩
    · rcases Bool.eq_false_or_eq_true ((messages.getD j default).role == "user") with hb | hb
      · exact eq_of_beq hb
      · rw [hb] at hjp
        simp at hjp
    · rcases Bool.eq_false_or_eq_true ((messages.getD j default).isDraft) with hb | hb
      · rcases Bool.eq_false_or_eq_true ((messages.getD j default).role == "user") with hr | hr
        · rw [hr, hb] at hjp
          simp at hjp
        · rw [hr] at hjp
          simp at hjp
      · exact hb
  · unfold detectInstructions
    exact (List.pairwise_lt_range messages.length).filter _

/-- C6 transcript for the witness: three plain user messages followed by a
pinned fourth one with no imperative phrase and no bullet list. -/
def c6Msgs : List Message :=
  [⟨"a", "user", "hi", 2, 1, 0, 1, false⟩,
   ⟨"b", "user", "thanks", 6, 2, 1, 3, false⟩,
   ⟨"c", "user", "ok", 2, 1, 3, 4, false⟩,
   ⟨"p", "user", "hello world", 11, 3, 4, 7, false⟩]

/-- Witness for C6: the pinned fourth user message (index 3, beyond the first
three, with zero imperative phrases) is included. -/
theorem pinned_always_instruction_c6_witness :
    3 ∈ detectInstructions ["p"] c6Msgs :=
  (pinned_always_instruction_c6 ["p"] c6Msgs).1 3 (by decide) rfl rfl (by decide)

/-- Helper for C8: the original indices recorded in the salience candidates,
in order, form a sublist of the indices of the enumerated message list. -/
theorem salientCandidates_index_sublist (excludeIds : List String) :
    ∀ l : List (ℕ × Message),
      ((l.filterMap fun p =>
        if excludeIds.contains p.2.id then none
        else
          let score := scoreSalience p.2
          if score = 0 then none else some ⟨p.2, score, p.1⟩).map ScoredMsg.index).Sublist
        (l.map Prod.fst) := by
  intro l
  induction l with
  | nil => simp
  | cons a t ih =>
    rw [List.filterMap_cons, List.map_cons]
    by_cases h1 : excludeIds.contains a.2.id = true
    · rw [if_pos h1]
      exact List.Sublist.cons _ ih
    · rw [if_neg h1]
      dsimp only
      by_cases h2 : scoreSalience a.2 = 0
      · rw [if_pos h2]
        exact List.Sublist.cons _ ih
      · rw [if_neg h2]
        exact List.Sublist.cons₂ _ ih

/-- C8: the selection feeding the Key highlights section takes only messages
outside the recent window with positive salience score, sorts them by score
descending with equal scores in ascending original transcript position,
keeps at most `maxCount` entries, and the returned messages are exactly the
messages of those entries. -/
theorem salience_selection_c8 (messages : List Message) (excludeIds : List String)
    (maxCount : ℕ) :
    (getSalientMessages messages excludeIds maxCount).length ≤ maxCount ∧
    (∀ e ∈ (salientSorted messages excludeIds).take maxCount,
      0 < e.score ∧ e.score = scoreSalience e.msg ∧
      excludeIds.contains e.msg.id = false ∧ e.msg ∈ messages) ∧
    ((salientSorted messages excludeIds).take maxCount).Pairwise
      (fun a b => b.score < a.score ∨ (a.score = b.score ∧ a.index < b.index)) ∧
    getSalientMessages messages excludeIds maxCount =
      ((salientSorted messages excludeIds).take maxCount).map ScoredMsg.msg := by
  refine ⟨?_, ?_, ?_, rfl⟩
  · unfold getSalientMessages
    rw [List.length_map, List.length_take]
    omega
  · intro e he
    have he' : e ∈ salientSorted messages excludeIds := List.mem_of_mem_take he
    have hcand : e ∈ salientCandidates messages excludeIds :=
      ((List.perm_insertionSort salienceLE _).mem_iff).mp he'
    unfold salientCandidates at hcand
    rw [List.mem_filterMap] at hcand
    obtain ⟨⟨i, x⟩, hp, hf⟩ := hcand
    by_cases h1 : excludeIds.contains x.id = true
    · rw [if_pos h1] at hf
      exact absurd hf (by simp)
    · rw [if_neg h1] at hf
      dsimp only at hf
      by_cases h2 : scoreSalience x = 0
      · rw [if_pos h2] at hf
        exact absurd hf (by simp)
      · rw [if_neg h2] at hf
        have he2 : e = ⟨x, scoreSalience x, i⟩ := (Option.some.injEq _ _).mp hf.symm
        subst he2
        refine ⟨Nat.pos_of_ne_zero h2, rfl, ?_, ?_⟩
        · exact Bool.not_eq_true _ ▸ h1
        · obtain ⟨hlen, hx⟩ := List.mem_enum hp
          rw [hx]
          exact List.getElem_mem hlen
  · have hsorted : List.Sorted salienceLE (salientSorted messages excludeIds) :=
      List.sorted_insertionSort salienceLE _
    have hsub : ((salientCandidates messages excludeIds).map ScoredMsg.index).Sublist
        (List.range messages.length) := by
      have := salientCandidates_index_sublist excludeIds messages.enum
      rwa [List.enum_map_fst] at this
    have hnodup : ((salientSorted messages excludeIds).map ScoredMsg.index).Nodup := by
      have hperm : ((salientSorted messages excludeIds).map ScoredMsg.index).Perm
          ((salientCandidates messages excludeIds).map ScoredMsg.index) :=
        (List.perm_insertionSort salienceLE _).map _
      exact hperm.nodup_iff.mpr (hsub.nodup (List.nodup_range _))
    have hdist : (salientSorted messages excludeIds).Pairwise
        (fun a b => a.index ≠ b.index) := List.pairwise_map.mp hnodup
    have hcomb := hsorted.and hdist
    have hstrict : (salientSorted messages excludeIds).Pairwise
        (fun a b => b.score < a.score ∨ (a.score = b.score ∧ a.index < b.index)) := by
      refine hcomb.imp ?_
      rintro a b ⟨hle, hne⟩
      rcases hle with h | ⟨heq, hidx⟩
      · exact Or.inl h
      · exact Or.inr ⟨heq, lt_of_le_of_ne hidx hne⟩
    exact hstrict.sublist (List.take_sublist _ _)

/-- C8 transcript for the witness: two equal-salience user messages. -/
def c8Msgs : List Message :=
  [⟨"x", "user", "first point", 11, 3, 0, 3, false⟩,
   ⟨"y", "user", "second point", 12, 3, 3, 6, false⟩]

/-- Witness for C8 on the concrete tie: both selected entries are scored
candidates and appear in ascending transcript order. -/
theorem salience_selection_c8_witness :
    (getSalientMessages c8Msgs [] 2).length ≤ 2 ∧
    ((salientSorted c8Msgs []).take 2).Pairwise
      (fun a b => b.score < a.score ∨ (a.score = b.score ∧ a.index < b.index)) :=
  ⟨(salience_selection_c8 c8Msgs [] 2).1, (salience_selection_c8 c8Msgs [] 2).2.2.1⟩

/-- C10: the short-and-dense rule (imperative count at least the minimum AND
fewer than 800 chars) is subsumed by the plain imperative-count rule: the
detector returns exactly the same index list as the variant with that rule
removed, for every pin set and message list. -/
theorem short_dense_rule_subsumed_c10 (pins : List String) (messages : List Message) :
    detectInstructions pins messages = detectInstructionsNoShortDense pins messages := by
  unfold detectInstructions detectInstructionsNoShortDense
  apply List.filter_congr
  intro i _
  unfold isInstructionAt isInstructionAtNoShortDense
  dsimp only
  by_cases h1 : !((messages.getD i default).role == "user")
  · rw [if_pos h1, if_pos h1]
  · rw [if_neg h1, if_neg h1]
    by_cases h2 : (messages.getD i default).isDraft
    · rw [if_pos h2, if_pos h2]
    · rw [if_neg h2, if_neg h2]
      by_cases h3 : pins.contains (messages.getD i default).id
      · rw [if_pos h3, if_pos h3]
      · rw [if_neg h3, if_neg h3]
        exact or_and_self_absorb _ _ _

end HealthBar
